import Mathlib

/-!
Shallow embedding of the JESX client-side UI framework (src/jesx.js) and
verification of its specification claims.

The embedding models:
  * the inline-expression substitution of text children (`evalTemplate`,
    jesx.js lines 190-199), with the ambient JavaScript global scope
    abstracted as an evaluation oracle `Env` (a successful evaluation
    yields the string form of the value, a thrown error yields `none`);
  * the element builder `createElement` (lines 155-214) over a value model
    of DOM nodes, property bags and child trees;
  * the process-wide template registry `__jesx_templates_raw` (line 355);
  * the singleton configuration store and `cfg` (lines 25-45, 121-145);
  * the route resolver (`getCurrentRoute`, `shouldHaveGlobal`,
    `getGlobalHeaders`, `getGlobalFooters`, lines 232-269);
  * the app renderer `renderApp` (lines 274-336) over a document model
    (head stylesheet links, inline style texts, body theme attribute and
    the body's child forest);
  * the partial re-render `rcmp` (lines 342-351) and the variadic public
    dispatch function `j` (lines 369-381).
-/

namespace Jesx

/-- The ambient JavaScript global scope, abstracted as an oracle for
`Function('return ' + expr)()` (jesx.js line 194): `some s` means the
expression evaluated successfully and its value stringifies to `s`;
`none` means evaluation threw. -/
def Env : Type := String → Option String

/-- One substitution step of `evalTemplate` (jesx.js lines 192-197): the
expression is evaluated in the global scope; a thrown error is caught and
replaced by the literal token `undefined`. -/
def jesxEvalStr (env : Env) (expr : String) : String :=
  match env expr with
  | some v => v
  | none => "undefined"

/-- Splits a character list at the first closing brace: `some (content, tail)`
when a `}` occurs, where `content` is everything before it and `tail`
everything after; `none` when the list has no `}`.  This is how the regex
`J\x7b([^\x7d]+)\x7d` (jesx.js line 191) delimits an inline expression:
`[^\x7d]+` takes the maximal brace-free run and must be followed by `\x7d`. -/
def braceSplit : List Char → Option (List Char × List Char)
  | [] => none
  | c :: rest =>
    if c = '}' then some ([], rest)
    else
      match braceSplit rest with
      | some (content, tail) => some (c :: content, tail)
      | none => none

/-- Global replacement of `J\x7b...\x7d` patterns over a character list,
mirroring `str.replace(/J\x7b([^\x7d]+)\x7d/g, ...)` (jesx.js line 191):
the scan moves left to right; at `J{` followed by a nonempty brace-free
run and a closing `}` the whole match is replaced by the (stringified,
error-caught) evaluation of the run, and scanning resumes after the
match; every other character is copied.  The fuel argument only bounds
the recursion; every step consumes at least one input character, so fuel
equal to the input length (as passed by `evalTemplate`) never runs out. -/
def evalTemplateAux (env : Env) : Nat → List Char → List Char
  | 0, l => l
  | _ + 1, [] => []
  | f + 1, 'J' :: '{' :: rest =>
    match braceSplit rest with
    | some (c :: cs, tail) =>
      (jesxEvalStr env ⟨c :: cs⟩).data ++ evalTemplateAux env f tail
    | some ([], _) => 'J' :: evalTemplateAux env f ('{' :: rest)
    | none => 'J' :: evalTemplateAux env f ('{' :: rest)
  | f + 1, c :: rest => c :: evalTemplateAux env f rest

/-- `evalTemplate` (jesx.js lines 190-199): inline-expression substitution
over a text child. -/
def evalTemplate (env : Env) (s : String) : String :=
  ⟨evalTemplateAux env s.data.length s.data⟩

/-- A primitive value inside a `class`/`style` property object
(class-name to boolean, style-property to string). -/
inductive PropPrim where
  | str (s : String)
  | bool (b : Bool)
deriving DecidableEq

/-- A property value in a property bag: a plain string, or an object
(used by the `class` and `style` special cases of jesx.js lines 173-182). -/
inductive PropVal where
  | str (s : String)
  | obj (entries : List (String × PropPrim))
deriving DecidableEq

/-- An ordered property bag (`props`), the model of a JS object literal. -/
abbrev PropsBag : Type := List (String × PropVal)

/-- Property access `bag[key]` on a property bag. -/
def bagLookup (bag : PropsBag) (k : String) : Option PropVal :=
  (bag.find? (fun p => p.1 == k)).map (·.2)

/-- JS truthiness of a property value (`""` is falsy, objects are truthy). -/
def propTruthy : PropVal → Bool
  | .str s => s != ""
  | .obj _ => true

/-- JS stringification `String(value)` of a property value. -/
def propToString : PropVal → String
  | .str s => s
  | .obj _ => "[object Object]"

/-- JS truthiness of a primitive. -/
def primTruthy : PropPrim → Bool
  | .str s => s != ""
  | .bool b => b

/-- JS stringification of a primitive. -/
def primToString : PropPrim → String
  | .str s => s
  | .bool b => if b then "true" else "false"

/-- `let nodeId = props && props.id` (jesx.js line 163) combined with the
truthiness test of line 164, yielding the registry key (object keys are
stringified). -/
def nodeIdOf (props : Option PropsBag) : Option String :=
  match props with
  | none => none
  | some bag =>
    match bagLookup bag "id" with
    | none => none
    | some v => if propTruthy v then some (propToString v) else none

/-- A concrete DOM node: an element (tag name, attribute list in document
order, inline style declarations, children) or a text node. -/
inductive DomNode where
  | elem (tag : String) (attrs : List (String × String))
      (style : List (String × String)) (children : List DomNode)
  | text (s : String)

/-- Attribute (or style-declaration) lookup on an element's list. -/
def attrLookup (attrs : List (String × String)) (k : String) : Option String :=
  (attrs.find? (fun p => p.1 == k)).map (·.2)

/-- `element.setAttribute(k, v)` / `element.style[k] = v`: replace the
existing entry for `k` in place, or append a new one. -/
def setAttr (attrs : List (String × String)) (k v : String) :
    List (String × String) :=
  if attrs.any (fun p => p.1 == k) then
    attrs.map (fun p => if p.1 == k then (k, v) else p)
  else attrs ++ [(k, v)]

/-- The token list of a `class` attribute value. -/
def classTokens (s : String) : List String :=
  (s.splitOn " ").filter (fun t => t != "")

/-- `element.classList.add(c)`: a no-op when the token is already present,
otherwise the token is appended to the `class` attribute. -/
def classListAdd (attrs : List (String × String)) (c : String) :
    List (String × String) :=
  let toks := classTokens ((attrLookup attrs "class").getD "")
  if c ∈ toks then attrs
  else setAttr attrs "class" (String.intercalate " " (toks ++ [c]))

/-- Processing of one property entry (jesx.js lines 172-186): a `class`
object adds each class whose value is truthy, a `style` object sets each
style property individually, anything else becomes a plain (stringified)
attribute.  The accumulator is the pair (attributes, style declarations). -/
def applyProp (acc : List (String × String) × List (String × String))
    (kv : String × PropVal) :
    List (String × String) × List (String × String) :=
  match kv.2 with
  | .obj entries =>
    if kv.1 = "class" then
      (entries.foldl
        (fun a pe => if primTruthy pe.2 then classListAdd a pe.1 else a)
        acc.1, acc.2)
    else if kv.1 = "style" then
      (acc.1, entries.foldl (fun sd pe => setAttr sd pe.1 (primToString pe.2)) acc.2)
    else (setAttr acc.1 kv.1 (propToString kv.2), acc.2)
  | .str s => (setAttr acc.1 kv.1 s, acc.2)

/-- `Object.entries(props).forEach(...)` (jesx.js lines 171-187) over the
whole bag, starting from a freshly created, attribute-free element. -/
def applyProps (props : Option PropsBag) :
    List (String × String) × List (String × String) :=
  match props with
  | none => ([], [])
  | some bag => bag.foldl applyProp ([], [])

/-- A child argument of the element builder: a string or number (text with
inline expressions), an existing node, a nested array, null/undefined, or
any other value (stringified without substitution, jesx.js line 208). -/
inductive Child where
  | str (s : String)
  | num (n : Int)
  | node (n : DomNode)
  | list (cs : List Child)
  | null
  | other (s : String)

/-- The descriptor stored in the template registry:
`\x7b tag, props, children \x7d` (jesx.js line 165). -/
structure Template where
  tag : String
  props : Option PropsBag
  children : List Child

/-- The process-wide template registry `__jesx_templates_raw`
(jesx.js line 355), keyed by identifier in insertion order. -/
abbrev Registry : Type := List (String × Template)

/-- Registry lookup `__jesx_templates_raw[id]`. -/
def regLookup (r : Registry) (i : String) : Option Template :=
  (r.find? (fun p => p.1 == i)).map (·.2)

mutual

/-- The `appendChild` child-flattening helper (jesx.js lines 200-211):
arrays recurse depth-first, strings and numbers become text nodes after
inline-expression substitution, nodes are appended as-is, null/undefined
are skipped, anything else is stringified into a text node. -/
def flattenChild (env : Env) : Child → List DomNode
  | .str s => [.text (evalTemplate env s)]
  | .num n => [.text (evalTemplate env (toString n))]
  | .node n => [n]
  | .list cs => flattenChildren env cs
  | .null => []
  | .other s => [.text s]

/-- Flattening of a children list in order (`child.forEach(appendChild)`,
jesx.js lines 201-202 and 211). -/
def flattenChildren (env : Env) : List Child → List DomNode
  | [] => []
  | c :: rest => flattenChild env c ++ flattenChildren env rest

end

/-- The output of a component's `render()`: a single node or an array of
nodes. -/
inductive RenderOut where
  | one (n : DomNode)
  | many (ns : List DomNode)

/-- A component class: constructing an instance with an optional `props`
argument and calling `render()` is modelled as one function application
(the constructor argument is `none` when `new component()` is called with
no argument, as in `renderComponent`). -/
def Comp : Type := Option PropsBag → RenderOut

/-- The first (`tag`) argument of the element builder: a tag-name string
or a component class (`typeof tag === 'function'`, jesx.js line 157). -/
inductive JsTag where
  | str (s : String)
  | comp (c : Comp)

/-- `JESX.createElement` (jesx.js lines 155-214).  A component tag is
instantiated with `props` and its `render()` result returned, with no
further processing.  A string tag first registers the verbatim descriptor
under `props.id` when that id is truthy and not yet registered
(first-write-wins, lines 163-166), then builds the concrete element:
properties are applied in order and the flattened children appended.
Returns the updated registry together with the built output. -/
def createElement (env : Env) (reg : Registry) (tag : JsTag)
    (props : Option PropsBag) (children : List Child) :
    Registry × RenderOut :=
  match tag with
  | .comp c => (reg, c props)
  | .str tagName =>
    let reg' :=
      match nodeIdOf props with
      | some i =>
        if (regLookup reg i).isNone then reg ++ [(i, ⟨tagName, props, children⟩)]
        else reg
      | none => reg
    let bits := applyProps props
    (reg', .one (DomNode.elem tagName bits.1 bits.2 (flattenChildren env children)))

/-- A value stored in the configuration's page map: a component class, or
any non-function value (`typeof component !== 'function'`,
jesx.js line 277). -/
inductive PageVal where
  | comp (c : Comp)
  | val (descr : String)

/-- The `ui` section of the configuration. -/
structure UIConfig where
  theme : Option String

/-- The `global` section of the configuration (jesx.js lines 32-36). -/
structure GlobalConfig where
  headers : List Comp
  footers : List Comp
  pages : List String

/-- The singleton configuration record (jesx.js lines 25-38; `inlineStyle`
is absent from the constructor defaults and only ever set via `cfg`). -/
structure Config where
  title : String
  ui : Option UIConfig
  style : Option String
  styles : List String
  inlineStyle : Option String
  global : GlobalConfig
  pages : List (String × PageVal)

/-- A configuration overlay passed to `cfg`: `none` in a field means the
overlay does not mention that key, so `Object.assign` leaves the current
value in place; `some x` means the key is present with value `x`. -/
structure Overlay where
  title : Option String := none
  ui : Option (Option UIConfig) := none
  style : Option (Option String) := none
  styles : Option (List String) := none
  inlineStyle : Option (Option String) := none
  global : Option GlobalConfig := none
  pages : Option (List (String × PageVal)) := none

/-- `Object.assign(this.config, config)` (jesx.js line 122): a shallow
overlay of the mentioned top-level keys, all other keys untouched. -/
def mergeConfig (c : Config) (o : Overlay) : Config :=
  { title := o.title.getD c.title
  , ui := o.ui.getD c.ui
  , style := o.style.getD c.style
  , styles := o.styles.getD c.styles
  , inlineStyle := o.inlineStyle.getD c.inlineStyle
  , global := o.global.getD c.global
  , pages := o.pages.getD c.pages }

/-- The live document as far as the framework touches it: stylesheet link
URLs and inline style texts in `document.head` (in insertion order), the
`data-theme` attribute on `document.body`, and the body's child forest. -/
structure Dom where
  headLinks : List String
  headInline : List String
  bodyTheme : Option String
  bodyChildren : List DomNode

/-- The whole mutable state of the framework: the singleton's
configuration and loaded-styles set, the process-wide template registry,
the document, and the `console.error` diagnostics emitted so far. -/
structure AppState where
  config : Config
  loadedStyles : List String
  reg : Registry
  dom : Dom
  log : List String

/-- The constructor defaults (jesx.js lines 25-38). -/
def defaultConfig : Config :=
  { title := "Site"
  , ui := some { theme := some "light" }
  , style := none
  , styles := []
  , inlineStyle := none
  , global := { headers := [], footers := [], pages := ["*"] }
  , pages := [] }

/-- A freshly constructed singleton over an empty document. -/
def initialState : AppState :=
  { config := defaultConfig
  , loadedStyles := []
  , reg := []
  , dom := { headLinks := [], headInline := [], bodyTheme := none, bodyChildren := [] }
  , log := [] }

/-- `JESX.addStyle` (jesx.js lines 67-75): inject a stylesheet link unless
the URL was already loaded. -/
def addStyle (url : String) (st : AppState) : AppState :=
  if url ∈ st.loadedStyles then st
  else
    { st with
      dom := { st.dom with headLinks := st.dom.headLinks ++ [url] }
      loadedStyles := st.loadedStyles ++ [url] }

/-- `JESX.addDefaultStyles` (jesx.js lines 50-58). -/
def addDefaultStyles (st : AppState) : AppState :=
  if "defaultstyles.css" ∈ st.loadedStyles then st
  else
    { st with
      dom := { st.dom with headLinks := st.dom.headLinks ++ ["defaultstyles.css"] }
      loadedStyles := st.loadedStyles ++ ["defaultstyles.css"] }

/-- `JESX.addStyles` (jesx.js lines 100-102). -/
def addStyles (urls : List String) (st : AppState) : AppState :=
  urls.foldl (fun s u => addStyle u s) st

/-- `JESX.addInlineStyle` (jesx.js lines 84-91): inject an inline `style`
element unless one with the exact same text already exists. -/
def addInlineStyle (css : String) (st : AppState) : AppState :=
  if css ∈ st.dom.headInline then st
  else { st with dom := { st.dom with headInline := st.dom.headInline ++ [css] } }

/-- The theme side effect of `cfg` (jesx.js lines 125-127):
`document.body.setAttribute('data-theme', theme)` when `config.ui` and
`config.ui.theme` are both truthy. -/
def applyThemeStep (st : AppState) : AppState :=
  match st.config.ui with
  | some u =>
    match u.theme with
    | some t =>
      if t ≠ "" then { st with dom := { st.dom with bodyTheme := some t } } else st
    | none => st
  | none => st

/-- `JESX.cfg` (jesx.js lines 121-145): shallow-merge the overlay into the
configuration, then apply the theme attribute, the single stylesheet, the
stylesheet list (always an array in this model, so the `Array.isArray`
guard of line 135 holds), and the inline stylesheet.  The JS method
returns `this` (the singleton); the returned state is that singleton's
updated state. -/
def cfg (o : Overlay) (st0 : AppState) : AppState :=
  let st1 := { st0 with config := mergeConfig st0.config o }
  let st2 := applyThemeStep st1
  let st3 :=
    match st2.config.style with
    | some s => if s ≠ "" then addStyle s st2 else st2
    | none => st2
  let st4 := addStyles st3.config.styles st3
  match st4.config.inlineStyle with
  | some css => if css ≠ "" then addInlineStyle css st4 else st4
  | none => st4

/-- `JESX.getCurrentRoute` (jesx.js lines 232-236).  The argument is the
raw `window.location.hash` (empty, or `#` followed by the fragment);
`slice(1)` drops the leading `#`. -/
def getCurrentRoute (locationHash : String) : String :=
  let hash : String := ⟨locationHash.data.drop 1⟩
  if hash ≠ "" then "/" ++ hash else "/"

/-- `JESX.shouldHaveGlobal` (jesx.js lines 244-247). -/
def shouldHaveGlobal (c : Config) (page : String) : Bool :=
  c.global.pages.contains "*" || c.global.pages.contains page

/-- `JESX.getGlobalHeaders` (jesx.js lines 255-258). -/
def getGlobalHeaders (c : Config) (page : String) : List Comp :=
  if shouldHaveGlobal c page then c.global.headers else []

/-- `JESX.getGlobalFooters` (jesx.js lines 266-269). -/
def getGlobalFooters (c : Config) (page : String) : List Comp :=
  if shouldHaveGlobal c page then c.global.footers else []

/-- Page-map access `this.config.pages[route]`. -/
def lookupPage (ps : List (String × PageVal)) (r : String) : Option PageVal :=
  (ps.find? (fun p => p.1 == r)).map (·.2)

/-- `this.config.pages.hasOwnProperty(route)` (jesx.js line 276). -/
def pagesHas (ps : List (String × PageVal)) (r : String) : Bool :=
  ps.any (fun p => p.1 == r)

/-- Body-component selection (jesx.js line 276): the page map's entry for
the route when one exists, otherwise the entry registered for `/`. -/
def selectPage (c : Config) (route : String) : Option PageVal :=
  if pagesHas c.pages route then lookupPage c.pages route
  else lookupPage c.pages "/"

/-- The validity test `typeof component === 'function'` (jesx.js line 277)
as a partial projection to the component. -/
def asFunction : Option PageVal → Option Comp
  | some (.comp c) => some c
  | _ => none

/-- `JESX.renderComponent` (jesx.js lines 222-225): `new component()`
followed by `render()` (constructor argument `undefined`). -/
def renderComponent (c : Comp) : RenderOut := c none

mutual

/-- `document.getElementById` restricted to one node: returns the first
element in document order whose `id` attribute equals `i`. -/
def findById (i : String) : DomNode → Option DomNode
  | .text _ => none
  | .elem t a sty kids =>
    if attrLookup a "id" = some i then some (.elem t a sty kids)
    else findByIdList i kids

/-- `document.getElementById` over a forest in document order. -/
def findByIdList (i : String) : List DomNode → Option DomNode
  | [] => none
  | n :: rest =>
    match findById i n with
    | some r => some r
    | none => findByIdList i rest

end

/-- The `id` attribute of a node (`none` for text nodes). -/
def nodeIdAttr : DomNode → Option String
  | .elem _ a _ _ => attrLookup a "id"
  | .text _ => none

mutual

/-- In-place mutation of the first element in document order whose `id`
attribute equals `i`: `some` of the rewritten node when found, `none`
otherwise. -/
def updateById (i : String) (f : DomNode → DomNode) : DomNode → Option DomNode
  | .text _ => none
  | .elem t a sty kids =>
    if attrLookup a "id" = some i then some (f (.elem t a sty kids))
    else
      match updateByIdList i f kids with
      | some kids' => some (.elem t a sty kids')
      | none => none

/-- In-place mutation over a forest, first match in document order only. -/
def updateByIdList (i : String) (f : DomNode → DomNode) :
    List DomNode → Option (List DomNode)
  | [] => none
  | n :: rest =>
    match updateById i f n with
    | some n' => some (n' :: rest)
    | none =>
      match updateByIdList i f rest with
      | some rest' => some (n :: rest')
      | none => none

end

/-- Replace an element's entire child list (the net effect of
`root.innerHTML = ''` followed by the `appendChild` calls of
jesx.js lines 309-334). -/
def setKids (kids : List DomNode) : DomNode → DomNode
  | .elem t a sty _ => .elem t a sty kids
  | .text s => .text s

/-- Append extra children to an existing element. -/
def appendKids (n : DomNode) (extra : List DomNode) : DomNode :=
  match n with
  | .elem t a sty kids => .elem t a sty (kids ++ extra)
  | .text s => .text s

/-- Apply the clear-and-rebuild to the mount container: the first element
with id `app` (the node `renderApp`'s `root` refers to) gets the given
child list.  The container is always found by `renderApp` (it was just
located or created), so the identity fallback never fires there. -/
def setAppChildren (st : AppState) (kids : List DomNode) : AppState :=
  { st with
    dom := { st.dom with
      bodyChildren :=
        (updateByIdList "app" (setKids kids) st.dom.bodyChildren).getD
          st.dom.bodyChildren } }

/-- The node list a `render()` output contributes when appended
element-by-element (jesx.js lines 322-326). -/
def renderOutNodes : RenderOut → List DomNode
  | .one n => [n]
  | .many ns => ns

/-- The single node of a `render()` output; the `.many` fallback is never
reached for outputs of the string-tag branch of `createElement`, which
always returns `.one`. -/
def oneNode : RenderOut → DomNode
  | .one n => n
  | .many ns => ns.headD (.text "")

/-- The header/footer loops (jesx.js lines 316-319 and 331-334): each
component is rendered and appended with `root.appendChild(...)`.  A
render output that is an array is not a `Node`, so `appendChild` throws:
the second component of the result is `true` and the accumulator holds
the children appended before the throw. -/
def appendRenders (acc : List DomNode) : List Comp → List DomNode × Bool
  | [] => (acc, false)
  | c :: rest =>
    match renderComponent c with
    | .one n => appendRenders (acc ++ [n]) rest
    | .many _ => (acc, true)

/-- The outcome of a render pass: normal completion, or a DOM exception
escaping mid-pass (state at the moment of the throw). -/
inductive RunOut where
  | ok (st : AppState)
  | thrown (st : AppState)

/-- `if (!this.loadedStyles.has('defaultstyles.css')) this.addDefaultStyles()`
(jesx.js lines 294-296). -/
def ensureDefaultStyles (st : AppState) : AppState :=
  if "defaultstyles.css" ∈ st.loadedStyles then st else addDefaultStyles st

/-- `if (this.config.style && !this.loadedStyles.has(this.config.style))
this.addStyle(this.config.style)` (jesx.js lines 297-299). -/
def ensureConfigStyle (st : AppState) : AppState :=
  match st.config.style with
  | some s => if s ≠ "" ∧ s ∉ st.loadedStyles then addStyle s st else st
  | none => st

/-- `this.config.styles.forEach(...)` (jesx.js lines 300-306); the list is
always an array in this model, so the truthiness guard of line 300 holds. -/
def ensureConfigStyles (st : AppState) : AppState :=
  st.config.styles.foldl
    (fun s u => if u ∈ s.loadedStyles then s else addStyle u s) st

/-- `JESX.renderApp` (jesx.js lines 274-336).  Resolve the route, select
the body component (explicit page-map entry, else the `/` entry); a
non-function selection emits a diagnostic and returns with no other
effect.  Otherwise: locate the `app` container or create and append one
(`j("div", \x7bid: "app"\x7d)` dispatches to `createElement` since `"div"`
is not a control token, registering the `app` template on first
creation); render the body; ensure the style resources; then clear the
container and append rendered headers, the `main-content` wrapper holding
the body output, and rendered footers, in that order.  A header or footer
`render()` returning an array makes `appendChild` throw mid-rebuild. -/
def renderApp (env : Env) (locationHash : String) (st0 : AppState) : RunOut :=
  let route := getCurrentRoute locationHash
  match asFunction (selectPage st0.config route) with
  | none =>
    .ok { st0 with log := st0.log ++ ["Invalid component for route: " ++ route] }
  | some c =>
    let st1 :=
      match findByIdList "app" st0.dom.bodyChildren with
      | some _ => st0
      | none =>
        let built := createElement env st0.reg (.str "div")
          (some [("id", PropVal.str "app")]) []
        { st0 with
          reg := built.1
          dom := { st0.dom with
            bodyChildren := st0.dom.bodyChildren ++ renderOutNodes built.2 } }
    let content := renderComponent c
    let st2 := ensureDefaultStyles st1
    let st3 := ensureConfigStyle st2
    let st4 := ensureConfigStyles st3
    let mainBuilt := createElement env st4.reg (.str "div")
      (some [("class", PropVal.str "main-content")]) []
    let st5 := { st4 with reg := mainBuilt.1 }
    let hdrs := getGlobalHeaders st5.config route
    match appendRenders [] hdrs with
    | (kidsH, true) => .thrown (setAppChildren st5 kidsH)
    | (kidsH, false) =>
      let mainNode := appendKids (oneNode mainBuilt.2) (renderOutNodes content)
      let ftrs := getGlobalFooters st5.config route
      match appendRenders (kidsH ++ [mainNode]) ftrs with
      | (kidsAll, true) => .thrown (setAppChildren st5 kidsAll)
      | (kidsAll, false) => .ok (setAppChildren st5 kidsAll)

/-- The value a call to `j` evaluates to. -/
inductive JRet where
  | inst
  | undef
  | thrown
  | out (r : RenderOut)

/-- The rest arguments of a `j` call after `args[0]`, with the three ways
the untyped `args[1]` is read depending on the dispatch taken: as a
configuration overlay (`cfg`), as an identifier string (`rcmp`), or as a
property bag (`createElement`); `children` models `args.slice(2)`. -/
structure JArgs where
  asOverlay : Overlay := {}
  asId : String := ""
  asProps : Option PropsBag := none
  children : List Child := []

/-- The string a props value coerces to when it is reinterpreted as the
identifier argument of `rcmp` (relevant only if a registered tag were a
control token, which the dispatcher makes impossible). -/
def jsStringOfProps : Option PropsBag → String
  | none => "undefined"
  | some _ => "[object Object]"

/-- The `===` comparison of `args[0]` against a control-token string
literal in the `switch` of `j` (jesx.js line 370): a component (function)
value never equals a string. -/
def JsTag.eqStr : JsTag → String → Bool
  | .str s, t => s == t
  | .comp _, _ => false

mutual

/-- The public variadic dispatch function `j` (jesx.js lines 369-381):
`args[0]` equal to `'cfg'`, `'render'` or `'rcmp'` routes to the
configuration entry point, the full render, or the partial re-render
respectively; anything else goes to `createElement` with all remaining
children.  `cfg` returns the singleton (`JRet.inst`); `renderApp` and
`rcmp` return `undefined`.  The fuel bounds the `j`/`rcmp` recursion that
dynamic dispatch makes possible; one unit is consumed per `j` unfolding. -/
def jFuel (env : Env) (locationHash : String) :
    Nat → JsTag → JArgs → AppState → AppState × JRet
  | 0, _, _, st => (st, .undef)
  | fuel + 1, a0, args, st =>
    if a0.eqStr "cfg" then (cfg args.asOverlay st, .inst)
    else if a0.eqStr "render" then
      match renderApp env locationHash st with
      | .ok st' => (st', .undef)
      | .thrown st' => (st', .thrown)
    else if a0.eqStr "rcmp" then
      (rcmpFuel env locationHash fuel args.asId st, .undef)
    else
      let built := createElement env st.reg a0 args.asProps args.children
      ({ st with reg := built.1 }, .out built.2)
termination_by fuel _ _ _ => 2 * fuel + 1

/-- `JESX.rcmp` (jesx.js lines 342-351): locate the live node by id (a
node `getElementById` returns always lies under `body` in this document
model, so the `parentNode` null-guard of line 346 never fires); look up
the registered template; missing node or missing template is a no-op.
Otherwise rebuild via `j(tpl.tag, tpl.props, ...tpl.children)` and
replace the located node in place (`parent.replaceChild`).  A rebuild
that does not produce a single node would make `replaceChild` throw
before mutating, leaving the document unchanged; that branch is
unreachable for registered templates, whose tags are never control
tokens. -/
def rcmpFuel (env : Env) (locationHash : String) :
    Nat → String → AppState → AppState
  | fuel, i, st =>
    match findByIdList i st.dom.bodyChildren with
    | none => st
    | some _ =>
      match regLookup st.reg i with
      | none => st
      | some tpl =>
        match jFuel env locationHash fuel (.str tpl.tag)
            { asOverlay := {}
              asId := jsStringOfProps tpl.props
              asProps := tpl.props
              children := tpl.children } st with
        | (st', JRet.out (RenderOut.one newNode)) =>
          { st' with
            dom := { st'.dom with
              bodyChildren :=
                (updateByIdList i (fun _ => newNode) st'.dom.bodyChildren).getD
                  st'.dom.bodyChildren } }
        | (st', _) => st'
termination_by fuel _ _ => 2 * fuel + 2

end

section ClaimEnvironments

/-- A global scope in which `1+1` evaluates (to a value whose string form
is `2`) and every other expression throws. -/
def envArith : Env := fun e => if e = "1+1" then some "2" else none

/-- A global scope in which every expression evaluation throws (as
`undefinedVar` does when no such binding exists). -/
def envUndef : Env := fun _ => none

/-- A global scope in which `counter` currently evaluates to `2`. -/
def envCounter : Env := fun e => if e = "counter" then some "2" else none

end ClaimEnvironments

/-- A header component rendering a single text node, for the C4 witness. -/
def hdrComp : Comp := fun _ => RenderOut.one (DomNode.text "H")

/-- A body component rendering a single text node, for the C4 witness. -/
def bodyCompW : Comp := fun _ => RenderOut.one (DomNode.text "B")

/-- A configured state with one global header, no footers and a `/` page. -/
def stOrder : AppState :=
  { initialState with
    config := { defaultConfig with
      pages := [("/", PageVal.comp bodyCompW)]
      global := { headers := [hdrComp], footers := [], pages := ["*"] } } }

/-- A state whose registry holds the `span`/`J\x7bcounter\x7d` template for
id `x` and whose document holds a stale build of it (text `1`). -/
def stCounter : AppState :=
  { initialState with
    reg := [("x", ⟨"span", some [("id", PropVal.str "x")], [Child.str "J{counter}"]⟩)]
    dom := { initialState.dom with
      bodyChildren := [DomNode.elem "div" [("id", "app")] []
        [DomNode.elem "span" [("id", "x")] [] [DomNode.text "1"]]] } }

section Lemmas

theorem braceSplit_length (l : List Char) :
    ∀ content tail, braceSplit l = some (content, tail) →
      content.length + 1 + tail.length = l.length := by
  induction l with
  | nil => intro content tail h; simp [braceSplit] at h
  | cons c rest ih =>
    intro content tail h
    by_cases hc : c = '}'
    · rw [braceSplit, if_pos hc] at h
      obtain ⟨h1, h2⟩ := Prod.mk.injEq .. ▸ (Option.some.injEq .. ▸ h)
      subst h1; subst h2; simp; omega
    · rw [braceSplit, if_neg hc] at h
      cases hbs : braceSplit rest with
      | none => rw [hbs] at h; simp at h
      | some p =>
        rw [hbs] at h
        cases p with
        | mk a b =>
          simp only [Option.some.injEq, Prod.mk.injEq] at h
          obtain ⟨h1, h2⟩ := h
          subst h1; subst h2
          have := ih a b hbs
          simp only [List.length_cons]
          omega

theorem braceSplit_append (l r : List Char) (hl : '}' ∉ l) :
    braceSplit (l ++ '}' :: r) = some (l, r) := by
  induction l with
  | nil => simp [braceSplit]
  | cons c cs ih =>
    have hc : c ≠ '}' := fun h => hl (h ▸ List.mem_cons_self c cs)
    have ih' := ih (fun hm => hl (List.mem_cons_of_mem c hm))
    simp only [List.cons_append]
    rw [braceSplit, if_neg hc, ih']

theorem regLookup_nil (i : String) : regLookup ([] : Registry) i = none := rfl

theorem regLookup_append_self (r : Registry) (i : String) (t : Template)
    (h : regLookup r i = none) : regLookup (r ++ [(i, t)]) i = some t := by
  induction r with
  | nil => simp [regLookup]
  | cons p rest ih =>
    unfold regLookup at h ⊢
    cases hp : (p.1 == i) with
    | true =>
      simp only [List.find?, hp] at h
      exact absurd h (by simp)
    | false =>
      simp only [List.find?, hp] at h
      simp only [List.cons_append, List.find?, hp]
      exact ih h

theorem regLookup_of_isSome (r : Registry) (i : String) (t : Template)
    (h : regLookup r i = some t) :
    ((regLookup r i).isNone) = false := by
  rw [h]; rfl

theorem evalTemplateAux_nil (env : Env) (f : Nat) :
    evalTemplateAux env f [] = [] := by
  cases f <;> rfl

theorem evalTemplateAux_single (env : Env) (f : Nat) (c : Char) (cs : List Char)
    (hb : '}' ∉ c :: cs) :
    evalTemplateAux env (f + 1) ('J' :: '{' :: ((c :: cs) ++ ['}'])) =
      (jesxEvalStr env ⟨c :: cs⟩).data := by
  have hbs : braceSplit ((c :: cs) ++ ['}']) = some (c :: cs, []) := by
    have := braceSplit_append (c :: cs) [] hb
    simpa using this
  rw [evalTemplateAux, hbs]
  dsimp only
  rw [evalTemplateAux_nil, List.append_nil]

/-- The general single-occurrence substitution fact: for any expression
text that is nonempty and brace-free, the builder substitutes the
evaluated (or fallback) string. -/
theorem evalTemplate_expr (env : Env) (e : String) (he : e.data ≠ [])
    (hb : '}' ∉ e.data) :
    evalTemplate env ("J\x7b" ++ e ++ "\x7d") = jesxEvalStr env e := by
  obtain ⟨c, cs, hcs⟩ := List.exists_cons_of_ne_nil he
  unfold evalTemplate
  have hd : ("J\x7b" ++ e ++ "\x7d").data = 'J' :: '{' :: (e.data ++ ['}']) := by
    have h1 : ("J\x7b" ++ e ++ "\x7d").data = ("J\x7b" ++ e).data ++ "\x7d".data :=
      String.data_append _ _
    have h2 : ("J\x7b" ++ e).data = "J\x7b".data ++ e.data := String.data_append _ _
    rw [h1, h2]
    simp
  rw [hd]
  have hlen : ('J' :: '{' :: (e.data ++ ['}'])).length = e.data.length + 2 + 1 := by
    simp only [List.length_cons, List.length_append, List.length_nil]
  rw [hlen, hcs]
  rw [evalTemplateAux_single env ((c :: cs).length + 2) c cs (hcs ▸ hb)]
  show String.mk (jesxEvalStr env ⟨c :: cs⟩).data = jesxEvalStr env e
  rw [← hcs]

mutual

theorem findById_none_update (i : String) (f : DomNode → DomNode) :
    ∀ n : DomNode, findById i n = none → updateById i f n = none
  | .text _ => fun _ => rfl
  | .elem t a sty kids => by
    intro h
    unfold findById at h
    unfold updateById
    by_cases hid : attrLookup a "id" = some i
    · rw [if_pos hid] at h; exact absurd h (by simp)
    · rw [if_neg hid] at h
      rw [if_neg hid, findByIdList_none_update i f kids h]

theorem findByIdList_none_update (i : String) (f : DomNode → DomNode) :
    ∀ l : List DomNode, findByIdList i l = none → updateByIdList i f l = none
  | [] => fun _ => rfl
  | n :: rest => by
    intro h
    unfold findByIdList at h
    unfold updateByIdList
    cases hf : findById i n with
    | some r => rw [hf] at h; exact absurd h (by simp)
    | none =>
      rw [hf] at h
      rw [findById_none_update i f n hf, findByIdList_none_update i f rest h]

end

mutual

theorem findById_id_attr (i : String) :
    ∀ n x : DomNode, findById i n = some x → nodeIdAttr x = some i
  | .text _ => by intro x h; exact absurd h (by simp [findById])
  | .elem t a sty kids => by
    intro x h
    unfold findById at h
    by_cases hid : attrLookup a "id" = some i
    · rw [if_pos hid] at h
      cases h
      exact hid
    · rw [if_neg hid] at h
      exact findByIdList_id_attr i kids x h

theorem findByIdList_id_attr (i : String) :
    ∀ (l : List DomNode) (x : DomNode),
      findByIdList i l = some x → nodeIdAttr x = some i
  | [] => by intro x h; exact absurd h (by simp [findByIdList])
  | n :: rest => by
    intro x h
    unfold findByIdList at h
    cases hf : findById i n with
    | some r =>
      rw [hf] at h
      cases h
      exact findById_id_attr i n x hf
    | none =>
      rw [hf] at h
      exact findByIdList_id_attr i rest x h

end

mutual

theorem updateById_found (i : String) (f : DomNode → DomNode) :
    ∀ n x : DomNode, findById i n = some x → nodeIdAttr (f x) = some i →
      ∃ n', updateById i f n = some n' ∧ findById i n' = some (f x)
  | .text _ => by intro x h _; exact absurd h (by simp [findById])
  | .elem t a sty kids => by
    intro x h hf
    unfold findById at h
    unfold updateById
    by_cases hid : attrLookup a "id" = some i
    · rw [if_pos hid] at h
      cases h
      refine ⟨f (.elem t a sty kids), by rw [if_pos hid], ?_⟩
      cases hfx : f (.elem t a sty kids) with
      | text s => rw [hfx] at hf; exact absurd hf (by simp [nodeIdAttr])
      | elem t' a' sty' kids' =>
        rw [hfx] at hf
        unfold nodeIdAttr at hf
        unfold findById
        rw [if_pos hf]
    · rw [if_neg hid] at h
      obtain ⟨kids', hk1, hk2⟩ := updateByIdList_found i f kids x h hf
      refine ⟨.elem t a sty kids', ?_, ?_⟩
      · rw [if_neg hid, hk1]
      · unfold findById
        rw [if_neg hid]
        exact hk2

theorem updateByIdList_found (i : String) (f : DomNode → DomNode) :
    ∀ (l : List DomNode) (x : DomNode),
      findByIdList i l = some x → nodeIdAttr (f x) = some i →
      ∃ l', updateByIdList i f l = some l' ∧ findByIdList i l' = some (f x)
  | [] => by intro x h _; exact absurd h (by simp [findByIdList])
  | n :: rest => by
    intro x h hf
    unfold findByIdList at h
    unfold updateByIdList
    cases hn : findById i n with
    | some r =>
      rw [hn] at h
      cases h
      obtain ⟨n', h1, h2⟩ := updateById_found i f n x hn hf
      refine ⟨n' :: rest, by rw [h1], ?_⟩
      unfold findByIdList
      rw [h2]
    | none =>
      rw [hn] at h
      obtain ⟨rest', h1, h2⟩ := updateByIdList_found i f rest x h hf
      rw [findById_none_update i f n hn, h1]
      refine ⟨n :: rest', rfl, ?_⟩
      unfold findByIdList
      rw [hn, h2]

end

theorem findByIdList_append_none (i : String) (l m : List DomNode)
    (h : findByIdList i l = none) :
    findByIdList i (l ++ m) = findByIdList i m := by
  induction l with
  | nil => rfl
  | cons n rest ih =>
    cases hn : findById i n with
    | some r =>
      simp only [findByIdList, hn] at h
      exact absurd h (by simp)
    | none =>
      simp only [findByIdList, hn] at h
      simp only [List.cons_append, findByIdList, hn]
      exact ih h

theorem updateByIdList_append_none (i : String) (f : DomNode → DomNode)
    (l m : List DomNode) (h : findByIdList i l = none) :
    updateByIdList i f (l ++ m) = (updateByIdList i f m).map (l ++ ·) := by
  induction l with
  | nil => simp
  | cons n rest ih =>
    cases hn : findById i n with
    | some r =>
      simp only [findByIdList, hn] at h
      exact absurd h (by simp)
    | none =>
      simp only [findByIdList, hn] at h
      have hupd := findById_none_update i f n hn
      rw [List.cons_append, updateByIdList, hupd, ih h]
      cases updateByIdList i f m <;> simp

theorem nodeIdAttr_setKids (kids : List DomNode) (n : DomNode) :
    nodeIdAttr (setKids kids n) = nodeIdAttr n := by
  cases n <;> rfl

/-- One-node render outputs make the header/footer loop append exactly the
rendered nodes, in configured order, with no throw. -/
theorem appendRenders_ones (comps : List Comp)
    (h : ∀ c ∈ comps, ∃ n, renderComponent c = RenderOut.one n) :
    ∀ acc, appendRenders acc comps =
      (acc ++ comps.map (fun c => oneNode (renderComponent c)), false) := by
  induction comps with
  | nil => intro acc; simp [appendRenders]
  | cons c rest ih =>
    intro acc
    obtain ⟨n, hn⟩ := h c (List.mem_cons_self c rest)
    unfold appendRenders
    rw [hn]
    dsimp only
    rw [ih (fun x hx => h x (List.mem_cons_of_mem c hx)) (acc ++ [n])]
    simp [oneNode, hn]

theorem addStyle_fields (u : String) (st : AppState) :
    (addStyle u st).config = st.config ∧ (addStyle u st).reg = st.reg ∧
      (addStyle u st).dom.bodyChildren = st.dom.bodyChildren ∧
      (addStyle u st).log = st.log := by
  unfold addStyle; split <;> exact ⟨rfl, rfl, rfl, rfl⟩

theorem addDefaultStyles_fields (st : AppState) :
    (addDefaultStyles st).config = st.config ∧ (addDefaultStyles st).reg = st.reg ∧
      (addDefaultStyles st).dom.bodyChildren = st.dom.bodyChildren ∧
      (addDefaultStyles st).log = st.log := by
  unfold addDefaultStyles; split <;> exact ⟨rfl, rfl, rfl, rfl⟩

theorem ensureDefaultStyles_fields (st : AppState) :
    (ensureDefaultStyles st).config = st.config ∧
      (ensureDefaultStyles st).reg = st.reg ∧
      (ensureDefaultStyles st).dom.bodyChildren = st.dom.bodyChildren ∧
      (ensureDefaultStyles st).log = st.log := by
  unfold ensureDefaultStyles
  split
  · exact ⟨rfl, rfl, rfl, rfl⟩
  · exact addDefaultStyles_fields st

theorem ensureConfigStyle_fields (st : AppState) :
    (ensureConfigStyle st).config = st.config ∧
      (ensureConfigStyle st).reg = st.reg ∧
      (ensureConfigStyle st).dom.bodyChildren = st.dom.bodyChildren ∧
      (ensureConfigStyle st).log = st.log := by
  unfold ensureConfigStyle
  cases st.config.style with
  | none => exact ⟨rfl, rfl, rfl, rfl⟩
  | some s =>
    dsimp only
    split
    · exact addStyle_fields s st
    · exact ⟨rfl, rfl, rfl, rfl⟩

theorem stylesFoldl_fields (l : List String) :
    ∀ st : AppState,
      ((l.foldl (fun s u => if u ∈ s.loadedStyles then s else addStyle u s) st)).config = st.config ∧
      ((l.foldl (fun s u => if u ∈ s.loadedStyles then s else addStyle u s) st)).reg = st.reg ∧
      ((l.foldl (fun s u => if u ∈ s.loadedStyles then s else addStyle u s) st)).dom.bodyChildren = st.dom.bodyChildren ∧
      ((l.foldl (fun s u => if u ∈ s.loadedStyles then s else addStyle u s) st)).log = st.log := by
  induction l with
  | nil => intro st; exact ⟨rfl, rfl, rfl, rfl⟩
  | cons u rest ih =>
    intro st
    rw [List.foldl_cons]
    obtain ⟨ha, hb, hc, hd⟩ := ih (if u ∈ st.loadedStyles then st else addStyle u st)
    rw [ha, hb, hc, hd]
    split
    · exact ⟨rfl, rfl, rfl, rfl⟩
    · exact addStyle_fields u st

theorem ensureConfigStyles_fields (st : AppState) :
    (ensureConfigStyles st).config = st.config ∧
      (ensureConfigStyles st).reg = st.reg ∧
      (ensureConfigStyles st).dom.bodyChildren = st.dom.bodyChildren ∧
      (ensureConfigStyles st).log = st.log :=
  stylesFoldl_fields st.config.styles st

theorem applyThemeStep_config (st : AppState) :
    (applyThemeStep st).config = st.config := by
  unfold applyThemeStep
  cases st.config.ui with
  | none => rfl
  | some u =>
    dsimp only
    cases u.theme with
    | none => rfl
    | some t =>
      dsimp only
      by_cases ht : t ≠ ""
      · rw [if_pos ht]
      · rw [if_neg ht]

theorem addStyles_config (l : List String) :
    ∀ st : AppState, (addStyles l st).config = st.config := by
  induction l with
  | nil => intro st; rfl
  | cons u rest ih =>
    intro st
    unfold addStyles at ih ⊢
    rw [List.foldl_cons, ih (addStyle u st), (addStyle_fields u st).1]

theorem addInlineStyle_config (css : String) (st : AppState) :
    (addInlineStyle css st).config = st.config := by
  unfold addInlineStyle; split <;> rfl

theorem styleStepB_config (st : AppState) :
    (match st.config.style with
      | some s => if s ≠ "" then addStyle s st else st
      | none => st).config = st.config := by
  cases st.config.style with
  | none => rfl
  | some s =>
    dsimp only
    split
    · exact (addStyle_fields s st).1
    · rfl

theorem inlineStepB_config (st : AppState) :
    (match st.config.inlineStyle with
      | some css => if css ≠ "" then addInlineStyle css st else st
      | none => st).config = st.config := by
  cases st.config.inlineStyle with
  | none => rfl
  | some css =>
    dsimp only
    split
    · exact addInlineStyle_config css st
    · rfl

/-- The configuration after `cfg` is exactly the shallow merge: the later
side effects (theme, style injection) never write back into `config`. -/
theorem cfg_config (o : Overlay) (st : AppState) :
    (cfg o st).config = mergeConfig st.config o := by
  unfold cfg
  exact (inlineStepB_config _).trans ((addStyles_config _ _).trans
    ((styleStepB_config _).trans (applyThemeStep_config _)))

theorem ensureDefaultStyles_config (s : AppState) :
    (ensureDefaultStyles s).config = s.config := (ensureDefaultStyles_fields s).1

theorem ensureDefaultStyles_bodyChildren (s : AppState) :
    (ensureDefaultStyles s).dom.bodyChildren = s.dom.bodyChildren :=
  (ensureDefaultStyles_fields s).2.2.1

theorem ensureDefaultStyles_log (s : AppState) :
    (ensureDefaultStyles s).log = s.log := (ensureDefaultStyles_fields s).2.2.2

theorem ensureConfigStyle_config (s : AppState) :
    (ensureConfigStyle s).config = s.config := (ensureConfigStyle_fields s).1

theorem ensureConfigStyle_bodyChildren (s : AppState) :
    (ensureConfigStyle s).dom.bodyChildren = s.dom.bodyChildren :=
  (ensureConfigStyle_fields s).2.2.1

theorem ensureConfigStyle_log (s : AppState) :
    (ensureConfigStyle s).log = s.log := (ensureConfigStyle_fields s).2.2.2

theorem ensureConfigStyles_config (s : AppState) :
    (ensureConfigStyles s).config = s.config := (ensureConfigStyles_fields s).1

theorem ensureConfigStyles_bodyChildren (s : AppState) :
    (ensureConfigStyles s).dom.bodyChildren = s.dom.bodyChildren :=
  (ensureConfigStyles_fields s).2.2.1

theorem ensureConfigStyles_log (s : AppState) :
    (ensureConfigStyles s).log = s.log := (ensureConfigStyles_fields s).2.2.2

theorem setAppChildren_log (s : AppState) (kids : List DomNode) :
    (setAppChildren s kids).log = s.log := rfl

theorem setAppChildren_bodyChildren (s : AppState) (kids : List DomNode) :
    (setAppChildren s kids).dom.bodyChildren =
      (updateByIdList "app" (setKids kids) s.dom.bodyChildren).getD
        s.dom.bodyChildren := rfl

/-- The `main-content` wrapper built by `j("div", ...)` with the body
output appended is the corresponding concrete element. -/
theorem mainNode_eq (env : Env) (r : Registry) (out : RenderOut) :
    appendKids (oneNode (createElement env r (.str "div")
        (some [("class", PropVal.str "main-content")]) []).2)
      (renderOutNodes out) =
    DomNode.elem "div" [("class", "main-content")] [] (renderOutNodes out) := rfl

/-- The freshly created `app` container node. -/
theorem appRoot_built (env : Env) (r : Registry) :
    renderOutNodes (createElement env r (.str "div")
      (some [("id", PropVal.str "app")]) []).2 =
      [DomNode.elem "div" [("id", "app")] [] []] := rfl

theorem setKids_update_find (i : String) (kids : List DomNode)
    (b : List DomNode) (t : String) (a sty : List (String × String))
    (kids0 : List DomNode)
    (h : findByIdList i b = some (DomNode.elem t a sty kids0))
    (hid : attrLookup a "id" = some i) :
    findByIdList i ((updateByIdList i (setKids kids) b).getD b) =
      some (DomNode.elem t a sty kids) := by
  have hattr : nodeIdAttr (setKids kids (DomNode.elem t a sty kids0)) = some i := by
    rw [nodeIdAttr_setKids]; exact hid
  obtain ⟨l', hu1, hu2⟩ := updateByIdList_found i (setKids kids) b _ h hattr
  rw [hu1]
  exact hu2

theorem setKids_update_find_app (kids : List DomNode) (b : List DomNode)
    (h : findByIdList "app" b = none) :
    findByIdList "app"
      ((updateByIdList "app" (setKids kids)
        (b ++ [DomNode.elem "div" [("id", "app")] [] []])).getD
        (b ++ [DomNode.elem "div" [("id", "app")] [] []])) =
      some (DomNode.elem "div" [("id", "app")] [] kids) := by
  rw [updateByIdList_append_none "app" (setKids kids) b _ h]
  have hupd : updateByIdList "app" (setKids kids)
      [DomNode.elem "div" [("id", "app")] [] []] =
      some [DomNode.elem "div" [("id", "app")] [] kids] := rfl
  rw [hupd]
  dsimp only [Option.map, Option.getD]
  rw [findByIdList_append_none "app" b _ h]
  rfl

end Lemmas

/-- C1: the Template Registry is first-write-wins: building a descriptor
whose `id` is already registered does not overwrite the entry, so after
two builds with the same identifier and different descriptors the lookup
still returns the first descriptor. -/
theorem createElement_first_write_wins (env1 env2 : Env) (reg : Registry)
    (t1 t2 : String) (p1 p2 : Option PropsBag) (c1 c2 : List Child) (i : String)
    (h1 : nodeIdOf p1 = some i) (h2 : nodeIdOf p2 = some i)
    (h0 : regLookup reg i = none) :
    regLookup (createElement env2 (createElement env1 reg (.str t1) p1 c1).1
        (.str t2) p2 c2).1 i = some ⟨t1, p1, c1⟩ := by
  have key : (createElement env1 reg (.str t1) p1 c1).1 =
      reg ++ [(i, ⟨t1, p1, c1⟩)] := by
    unfold createElement
    dsimp only
    rw [h1]
    dsimp only
    rw [h0]
    rfl
  have key2 : regLookup (reg ++ [(i, ⟨t1, p1, c1⟩)]) i = some ⟨t1, p1, c1⟩ :=
    regLookup_append_self reg i _ h0
  have key3 : (createElement env2 (reg ++ [(i, ⟨t1, p1, c1⟩)]) (.str t2) p2 c2).1 =
      reg ++ [(i, ⟨t1, p1, c1⟩)] := by
    unfold createElement
    dsimp only
    rw [h2]
    dsimp only
    rw [key2]
    rfl
  rw [key, key3]
  exact key2

theorem createElement_first_write_wins_witness :
    regLookup (createElement envUndef
        (createElement envUndef [] (.str "div")
          (some [("id", PropVal.str "x")]) []).1
        (.str "span") (some [("id", PropVal.str "x")]) [Child.str "hey"]).1 "x"
      = some ⟨"div", some [("id", PropVal.str "x")], []⟩ :=
  createElement_first_write_wins envUndef envUndef [] "div" "span"
    (some [("id", PropVal.str "x")]) (some [("id", PropVal.str "x")])
    [] [Child.str "hey"] "x" rfl rfl rfl

/-- C2: renderApp aborts atomically on an invalid body component: when the
selected body component is not a valid component reference, renderApp
only appends the diagnostic to the console log; configuration, loaded
styles, registry and the whole document (head and body) stay exactly as
before the call. -/
theorem renderApp_invalid_aborts (env : Env) (locationHash : String)
    (st : AppState)
    (h : asFunction (selectPage st.config (getCurrentRoute locationHash)) = none) :
    renderApp env locationHash st =
      RunOut.ok { st with log := st.log ++
        ["Invalid component for route: " ++ getCurrentRoute locationHash] } := by
  unfold renderApp
  dsimp only
  rw [h]

theorem renderApp_invalid_aborts_witness :
    renderApp envUndef "" initialState =
      RunOut.ok { initialState with log := initialState.log ++
        ["Invalid component for route: " ++ getCurrentRoute ""] } :=
  renderApp_invalid_aborts envUndef "" initialState rfl

/-- C3: inline-expression substitution is total and never throws: a text
child `J{e}` with nonempty brace-free expression text builds to the
string form of evaluating `e` in the global scope, with the literal token
`undefined` substituted whenever evaluation fails (`jesxEvalStr` is the
caught evaluation, and `evalTemplate` is a total function); the Element
Builder turns any text child into exactly the substituted text node; in
particular `J{1+1}` builds to `2`, `J{undefinedVar}` builds to
`undefined`, and every occurrence in a text is replaced. -/
theorem inline_substitution_total_safe :
    (∀ (env : Env) (e : String), e.data ≠ [] → '}' ∉ e.data →
        evalTemplate env ("J\x7b" ++ e ++ "\x7d") = jesxEvalStr env e)
    ∧ (∀ (env : Env) (reg : Registry) (s : String),
        (createElement env reg (.str "p") none [Child.str s]).2 =
          RenderOut.one (DomNode.elem "p" [] [] [DomNode.text (evalTemplate env s)]))
    ∧ evalTemplate envArith "J{1+1}" = "2"
    ∧ evalTemplate envUndef "J{undefinedVar}" = "undefined"
    ∧ evalTemplate envArith "a J{1+1}b, J{1+1}!" = "a 2b, 2!" := by
  refine ⟨evalTemplate_expr, ?_, rfl, rfl, rfl⟩
  intro env reg s
  rfl

theorem inline_substitution_total_safe_witness :
    evalTemplate envUndef ("J\x7b" ++ "boom" ++ "\x7d") = jesxEvalStr envUndef "boom" :=
  inline_substitution_total_safe.1 envUndef "boom" (by decide) (by decide)

/-- C5: rcmp on a missing or stale target is a silent no-op: when no live
node with the identifier exists in the document, or the Template Registry
has no entry for it, the state (document included) is returned unchanged
and no error is raised (the function is total).  The third guard of the
source (`node.parentNode` being null) can never fire here:
`getElementById` only returns nodes attached under `body`, which always
have a parent. -/
theorem rcmp_missing_noop (env : Env) (locationHash : String) (fuel : Nat)
    (i : String) (st : AppState)
    (h : findByIdList i st.dom.bodyChildren = none ∨ regLookup st.reg i = none) :
    rcmpFuel env locationHash fuel i st = st := by
  rw [rcmpFuel]
  rcases h with h | h
  · rw [h]
  · cases hf : findByIdList i st.dom.bodyChildren with
    | none => rfl
    | some x =>
      dsimp only
      rw [h]

theorem rcmp_missing_noop_witness :
    rcmpFuel envUndef "" 1 "ghost" initialState = initialState :=
  rcmp_missing_noop envUndef "" 1 "ghost" initialState (Or.inl rfl)

/-- C7: renderApp's body-component selection falls back to the root page:
the body component is the page map's entry for the route when an explicit
entry exists, and otherwise the component registered for `/`. -/
theorem selectPage_fallback (c : Config) (route : String) :
    (pagesHas c.pages route = true →
      selectPage c route = lookupPage c.pages route)
    ∧ (pagesHas c.pages route = false →
      selectPage c route = lookupPage c.pages "/") := by
  constructor <;> intro h <;> unfold selectPage <;> rw [h] <;> simp

theorem selectPage_fallback_witness :
    selectPage { defaultConfig with pages := [("/", PageVal.val "nonfn")] }
        "/missing" =
      lookupPage [("/", PageVal.val "nonfn")] "/" :=
  (selectPage_fallback { defaultConfig with pages := [("/", PageVal.val "nonfn")] }
    "/missing").2 rfl

/-- C8: updating the configuration is a shallow overlay preserving
unmentioned fields: each of the seven configuration fields takes the
overlay's value when mentioned and keeps its previous (default or prior)
value when not (`Option.getD` states both at once), and the public entry
point routes `j('cfg', o)` to `cfg` and returns the singleton instance
(`JRet.inst` models `return this`) for chaining. -/
theorem cfg_shallow_overlay (o : Overlay) (st : AppState) :
    ((cfg o st).config.title = o.title.getD st.config.title)
    ∧ ((cfg o st).config.ui = o.ui.getD st.config.ui)
    ∧ ((cfg o st).config.style = o.style.getD st.config.style)
    ∧ ((cfg o st).config.styles = o.styles.getD st.config.styles)
    ∧ ((cfg o st).config.inlineStyle = o.inlineStyle.getD st.config.inlineStyle)
    ∧ ((cfg o st).config.global = o.global.getD st.config.global)
    ∧ ((cfg o st).config.pages = o.pages.getD st.config.pages)
    ∧ (∀ (env : Env) (locationHash : String) (fuel : Nat) (args : JArgs),
        jFuel env locationHash (fuel + 1) (.str "cfg") args st =
          (cfg args.asOverlay st, JRet.inst)) := by
  refine ⟨?_, ?_, ?_, ?_, ?_, ?_, ?_, ?_⟩
  · rw [cfg_config]; rfl
  · rw [cfg_config]; rfl
  · rw [cfg_config]; rfl
  · rw [cfg_config]; rfl
  · rw [cfg_config]; rfl
  · rw [cfg_config]; rfl
  · rw [cfg_config]; rfl
  · intro env locationHash fuel args
    rw [jFuel]
    rfl

theorem cfg_shallow_overlay_witness :
    ((cfg { title := some "My Site" } initialState).config.title =
      ({ title := some "My Site" } : Overlay).title.getD initialState.config.title)
    ∧ ((cfg { title := some "My Site" } initialState).config.pages =
      ({ title := some "My Site" } : Overlay).pages.getD initialState.config.pages) :=
  ⟨(cfg_shallow_overlay { title := some "My Site" } initialState).1,
    (cfg_shallow_overlay { title := some "My Site" } initialState).2.2.2.2.2.2.1⟩

/-- C9: currentRoute returns `/` when the navigation fragment is absent or
empty, `/` concatenated with the fragment for every nonempty fragment,
and is never the empty string. -/
theorem getCurrentRoute_spec :
    getCurrentRoute "" = "/"
    ∧ (∀ x : String, x ≠ "" → getCurrentRoute ("#" ++ x) = "/" ++ x)
    ∧ (∀ h : String, getCurrentRoute h ≠ "") := by
  refine ⟨rfl, ?_, ?_⟩
  · intro x hx
    show (if x ≠ "" then "/" ++ x else "/") = "/" ++ x
    rw [if_pos hx]
  · intro h
    unfold getCurrentRoute
    dsimp only
    split
    · intro hcon
      have hdata := congrArg String.data hcon
      rw [String.data_append] at hdata
      simp at hdata
    · decide

theorem getCurrentRoute_spec_witness :
    getCurrentRoute ("#" ++ "about") = "/" ++ "about" :=
  getCurrentRoute_spec.2.1 "about" (by decide)

/-- C10: the variadic dispatch function shadows its control tokens:
`j('cfg', ...)`, `j('render')` and `j('rcmp', id)` route to the
configuration entry point, the full render, and the partial re-render
respectively; every other first argument goes to the Element Builder; and
a call whose first argument is one of the three token strings never
returns a built value (`JRet.out`), so no concrete element with one of
those tag names can be created through the entry point. -/
theorem j_token_dispatch (env : Env) (locationHash : String) (fuel : Nat)
    (args : JArgs) (st : AppState) :
    (jFuel env locationHash (fuel + 1) (.str "cfg") args st =
        (cfg args.asOverlay st, JRet.inst))
    ∧ (jFuel env locationHash (fuel + 1) (.str "render") args st =
        match renderApp env locationHash st with
        | .ok st' => (st', JRet.undef)
        | .thrown st' => (st', JRet.thrown))
    ∧ (jFuel env locationHash (fuel + 1) (.str "rcmp") args st =
        (rcmpFuel env locationHash fuel args.asId st, JRet.undef))
    ∧ (∀ t : String, t ≠ "cfg" → t ≠ "render" → t ≠ "rcmp" →
        jFuel env locationHash (fuel + 1) (.str t) args st =
          ({ st with
              reg := (createElement env st.reg (.str t) args.asProps args.children).1 },
            JRet.out (createElement env st.reg (.str t) args.asProps args.children).2))
    ∧ (∀ t : String, (t = "cfg" ∨ t = "render" ∨ t = "rcmp") →
        ∀ r : RenderOut,
          (jFuel env locationHash (fuel + 1) (.str t) args st).2 ≠ JRet.out r) := by
  refine ⟨by rw [jFuel]; rfl, by rw [jFuel]; rfl, by rw [jFuel]; rfl, ?_, ?_⟩
  · intro t ht1 ht2 ht3
    rw [jFuel]
    simp only [JsTag.eqStr]
    rw [beq_eq_false_iff_ne.mpr ht1, beq_eq_false_iff_ne.mpr ht2,
      beq_eq_false_iff_ne.mpr ht3]
    rfl
  · intro t ht r
    rcases ht with h | h | h <;> subst h <;> rw [jFuel]
    · simp [JsTag.eqStr]
    · cases renderApp env locationHash st <;> simp [JsTag.eqStr]
    · simp [JsTag.eqStr]

theorem j_token_dispatch_witness :
    jFuel envUndef "" 1 (.str "section") {} initialState =
      ({ initialState with
          reg := (createElement envUndef initialState.reg (.str "section")
            none []).1 },
        JRet.out (createElement envUndef initialState.reg (.str "section")
          none []).2) :=
  (j_token_dispatch envUndef "" 0 {} initialState).2.2.2.1 "section"
    (by decide) (by decide) (by decide)

/-- C4: after every successful renderApp pass the mount container's
children are: the rendered global headers in configured order, then
exactly one `main-content` wrapper holding the body component's rendered
output, then the rendered global footers in configured order; with zero
headers and footers the two maps are empty, leaving exactly the wrapper,
and with N headers the N rendered header nodes precede the wrapper
(`length_map` conjunct).  The hypotheses require a valid body component
and header/footer renders that return single nodes (an array render would
throw in `appendChild` and the pass would not complete). -/
theorem renderApp_children_order (env : Env) (locationHash : String)
    (st : AppState) (c : Comp)
    (hc : asFunction (selectPage st.config (getCurrentRoute locationHash)) = some c)
    (hH : ∀ x ∈ getGlobalHeaders st.config (getCurrentRoute locationHash),
        ∃ n, renderComponent x = RenderOut.one n)
    (hF : ∀ x ∈ getGlobalFooters st.config (getCurrentRoute locationHash),
        ∃ n, renderComponent x = RenderOut.one n) :
    ∃ (st' : AppState) (t : String) (a sty : List (String × String)),
      renderApp env locationHash st = RunOut.ok st' ∧
      findByIdList "app" st'.dom.bodyChildren =
        some (DomNode.elem t a sty
          ((getGlobalHeaders st.config (getCurrentRoute locationHash)).map
              (fun x => oneNode (renderComponent x))
            ++ [DomNode.elem "div" [("class", "main-content")] []
                  (renderOutNodes (renderComponent c))]
            ++ (getGlobalFooters st.config (getCurrentRoute locationHash)).map
              (fun x => oneNode (renderComponent x)))) ∧
      ((getGlobalHeaders st.config (getCurrentRoute locationHash)).map
          (fun x => oneNode (renderComponent x))).length =
        (getGlobalHeaders st.config (getCurrentRoute locationHash)).length ∧
      st'.log = st.log := by
  unfold renderApp
  dsimp only
  rw [hc]
  dsimp only
  cases hroot : findByIdList "app" st.dom.bodyChildren with
  | some x =>
    dsimp only
    rw [ensureConfigStyles_config, ensureConfigStyle_config,
      ensureDefaultStyles_config]
    rw [appendRenders_ones _ hH]
    dsimp only
    rw [mainNode_eq]
    rw [appendRenders_ones _ hF]
    dsimp only
    simp only [List.nil_append]
    have hid := findByIdList_id_attr "app" st.dom.bodyChildren x hroot
    cases x with
    | text s => exact absurd hid (by simp [nodeIdAttr])
    | elem t a sty kids0 =>
      refine ⟨_, t, a, sty, rfl, ?_, List.length_map _ _, ?_⟩
      · rw [setAppChildren_bodyChildren]
        dsimp only
        rw [ensureConfigStyles_bodyChildren, ensureConfigStyle_bodyChildren,
          ensureDefaultStyles_bodyChildren]
        exact setKids_update_find "app" _ st.dom.bodyChildren t a sty kids0
          hroot hid
      · rw [setAppChildren_log]
        dsimp only
        rw [ensureConfigStyles_log, ensureConfigStyle_log,
          ensureDefaultStyles_log]
  | none =>
    dsimp only
    rw [appRoot_built]
    rw [ensureConfigStyles_config, ensureConfigStyle_config,
      ensureDefaultStyles_config]
    dsimp only
    rw [appendRenders_ones _ hH]
    dsimp only
    rw [mainNode_eq]
    rw [appendRenders_ones _ hF]
    dsimp only
    simp only [List.nil_append]
    refine ⟨_, "div", [("id", "app")], [], rfl, ?_, List.length_map _ _, ?_⟩
    · rw [setAppChildren_bodyChildren]
      dsimp only
      rw [ensureConfigStyles_bodyChildren, ensureConfigStyle_bodyChildren,
        ensureDefaultStyles_bodyChildren]
      dsimp only
      exact setKids_update_find_app _ st.dom.bodyChildren hroot
    · rw [setAppChildren_log]
      dsimp only
      rw [ensureConfigStyles_log, ensureConfigStyle_log,
        ensureDefaultStyles_log]

theorem renderApp_children_order_witness :
    ∃ (st' : AppState) (t : String) (a sty : List (String × String)),
      renderApp envUndef "" stOrder = RunOut.ok st' ∧
      findByIdList "app" st'.dom.bodyChildren =
        some (DomNode.elem t a sty
          ((getGlobalHeaders stOrder.config (getCurrentRoute "")).map
              (fun x => oneNode (renderComponent x))
            ++ [DomNode.elem "div" [("class", "main-content")] []
                  (renderOutNodes (renderComponent bodyCompW))]
            ++ (getGlobalFooters stOrder.config (getCurrentRoute "")).map
              (fun x => oneNode (renderComponent x)))) ∧
      ((getGlobalHeaders stOrder.config (getCurrentRoute "")).map
          (fun x => oneNode (renderComponent x))).length =
        (getGlobalHeaders stOrder.config (getCurrentRoute "")).length ∧
      st'.log = stOrder.log :=
  renderApp_children_order envUndef "" stOrder bodyCompW rfl
    (by
      intro x hx
      have hx' : x ∈ [hdrComp] := hx
      rw [List.mem_singleton] at hx'
      subst hx'
      exact ⟨DomNode.text "H", rfl⟩)
    (by
      intro x hx
      exact absurd (show x ∈ ([] : List Comp) from hx) (List.not_mem_nil x))

/-- C6: rcmp replays the originally registered descriptor verbatim and
re-evaluates inline expressions against the current ambient state: with a
registry entry for the identifier and a live node carrying it, the pass
rebuilds via `createElement` over the stored tag/props/children under the
*current* environment (so `J\x7b...\x7d` texts are re-substituted with
current values, and nothing of the old, possibly mutated, node survives)
and swaps the first node with that identifier in place; when the rebuilt
node keeps the identifier, lookup now yields exactly the rebuilt node. -/
theorem rcmp_replays_template (env : Env) (locationHash : String) (fuel : Nat)
    (st : AppState) (i tg : String) (props : Option PropsBag) (ch : List Child)
    (x : DomNode)
    (hfind : findByIdList i st.dom.bodyChildren = some x)
    (hreg : regLookup st.reg i = some ⟨tg, props, ch⟩)
    (ht1 : tg ≠ "cfg") (ht2 : tg ≠ "render") (ht3 : tg ≠ "rcmp") :
    (rcmpFuel env locationHash (fuel + 1) i st =
      { st with
        reg := (createElement env st.reg (.str tg) props ch).1
        dom := { st.dom with
          bodyChildren :=
            (updateByIdList i
              (fun _ => oneNode (createElement env st.reg (.str tg) props ch).2)
              st.dom.bodyChildren).getD st.dom.bodyChildren } })
    ∧ ((createElement env st.reg (.str tg) props ch).2 =
        RenderOut.one (DomNode.elem tg (applyProps props).1 (applyProps props).2
          (flattenChildren env ch)))
    ∧ (nodeIdAttr (oneNode (createElement env st.reg (.str tg) props ch).2) = some i →
        findByIdList i
          ((updateByIdList i
            (fun _ => oneNode (createElement env st.reg (.str tg) props ch).2)
            st.dom.bodyChildren).getD st.dom.bodyChildren) =
          some (oneNode (createElement env st.reg (.str tg) props ch).2)) := by
  refine ⟨?_, rfl, ?_⟩
  · rw [rcmpFuel]
    rw [hfind]
    dsimp only
    rw [hreg]
    dsimp only
    rw [jFuel]
    simp only [JsTag.eqStr]
    rw [beq_eq_false_iff_ne.mpr ht1, beq_eq_false_iff_ne.mpr ht2,
      beq_eq_false_iff_ne.mpr ht3]
    rfl
  · intro hid
    obtain ⟨l', hu1, hu2⟩ := updateByIdList_found i
      (fun _ => oneNode (createElement env st.reg (.str tg) props ch).2)
      st.dom.bodyChildren x hfind hid
    rw [hu1]
    exact hu2

theorem rcmp_replays_template_witness :
    rcmpFuel envCounter "" 1 "x" stCounter =
      { stCounter with
        dom := { stCounter.dom with
          bodyChildren := [DomNode.elem "div" [("id", "app")] []
            [DomNode.elem "span" [("id", "x")] [] [DomNode.text "2"]]] } } := by
  rw [(rcmp_replays_template envCounter "" 0 stCounter "x" "span"
    (some [("id", PropVal.str "x")]) [Child.str "J{counter}"]
    (DomNode.elem "span" [("id", "x")] [] [DomNode.text "1"])
    rfl rfl (by decide) (by decide) (by decide)).1]
  rfl

end Jesx
